import Mathlib

/-!
Verification of the postgresql-mcp application core against its design
specification.

The Go sources `internal/app/client.go` and `internal/app/app.go` are embedded
shallowly: Go strings become Lean `String`s (or `List Char` where character
level reasoning is needed), the PostgreSQL driver and server are modelled by
an `Oracle` of response functions, and every operation additionally returns
the list of database round-trips it performed, so that ordering and
reachability properties can be stated.
-/

deriving instance DecidableEq for Except

namespace PgMcp

/-- Unicode code points with the White_Space property, as accepted by Go
`unicode.IsSpace` and trimmed by `strings.TrimSpace`. -/
def spaceCodes : List Nat :=
  [9, 10, 11, 12, 13, 32, 0x85, 0xA0, 0x1680,
   0x2000, 0x2001, 0x2002, 0x2003, 0x2004, 0x2005, 0x2006, 0x2007,
   0x2008, 0x2009, 0x200A, 0x2028, 0x2029, 0x202F, 0x205F, 0x3000]

/-- Model of Go `unicode.IsSpace`. -/
def goIsSpace (c : Char) : Bool := spaceCodes.contains c.toNat

/-- Model of Go `unicode.ToUpper` as applied rune-wise by `strings.ToUpper`,
on the ASCII range (every character of the keywords the gate compares against
is ASCII); `Char.toUpper` maps `a`..`z` to `A`..`Z` and is the identity
elsewhere. -/
def goToUpper (c : Char) : Char := Char.toUpper c

/-- Drop trailing white space (the second half of Go `strings.TrimSpace`). -/
def dropTrailingSpace (l : List Char) : List Char :=
  (l.reverse.dropWhile goIsSpace).reverse

/-- Model of Go `strings.TrimSpace`. -/
def trimSpace (l : List Char) : List Char :=
  dropTrailingSpace (l.dropWhile goIsSpace)

/-- Model of Go `strings.HasPrefix pat s` (first argument is the pattern). -/
def hasPref : List Char → List Char → Bool
  | [], _ => true
  | _ :: _, [] => false
  | a :: as, b :: bs => a == b && hasPref as bs

/-- Keyword `SELECT` accepted by the safety gate. -/
def selectKeyword : List Char := ['S', 'E', 'L', 'E', 'C', 'T']

/-- Keyword `WITH` accepted by the safety gate. -/
def withKeyword : List Char := ['W', 'I', 'T', 'H']

/-- The static error values of `internal/app/interfaces.go`, together with
constructors for errors built by `fmt.Errorf`: `wrapped msg e` models
`fmt.Errorf(msg + ": %w", e)` wrapping a package error, and `foreign msg`
models an error whose unwrap chain contains no static error of this package
(for example a raw driver error, wrapped or not). -/
inductive Err where
  | connectionRequired
  | schemaRequired
  | tableRequired
  | queryRequired
  | invalidQuery
  | noConnectionString
  | noDatabaseConnection
  | tableNotFound
  | marshalFailed
  | wrapped (msg : String) (inner : Err)
  | foreign (msg : String)
deriving DecidableEq, Repr

/-- Model of Go `errors.Is`: the error matches the target directly or through
its unwrap chain. -/
def errIs (e target : Err) : Bool :=
  (e == target) ||
    match e with
    | .wrapped _ inner => errIs inner target
    | _ => false

/-- Model of `validateQuery` (client.go 352-358): upper-case the query text,
trim surrounding white space and require a `SELECT` or `WITH` prefix,
otherwise reject with `ErrInvalidQuery`. -/
def validateQuery (query : List Char) : Except Err Unit :=
  let trimmedQuery := trimSpace (query.map goToUpper)
  if !hasPref selectKeyword trimmedQuery && !hasPref withKeyword trimmedQuery then
    .error .invalidQuery
  else
    .ok ()

/-- Dynamically typed driver value, one `interface\x7b\x7d` cell as produced
by `database/sql` row scanning. A Go string is an immutable byte sequence, so
both `vString` and `vBytes` carry raw bytes; `vFloat` carries the IEEE-754
bit pattern, which is only ever passed through, never computed with. -/
inductive SqlValue where
  | vNull
  | vBool (b : Bool)
  | vInt (i : Int)
  | vFloat (bits : Nat)
  | vString (bytes : List Nat)
  | vBytes (bytes : List Nat)
deriving DecidableEq, Repr

/-- Per-cell conversion done by `processRows` (client.go 380-384): a `[]byte`
value becomes the string of the same bytes (`string(b)`), everything else is
passed through unchanged. -/
def convertValue : SqlValue → SqlValue
  | .vBytes b => .vString b
  | v => v

/-- Model of `processRows` (client.go 361-389) on the scanned rows: convert
every cell of every row. -/
def processRows (rows : List (List SqlValue)) : List (List SqlValue) :=
  rows.map (fun values => values.map convertValue)

/-- Brace test for Go `strings.Trim(s, "\x7b\x7d")`. -/
def isBrace (c : Char) : Bool := c == '\x7b' || c == '\x7d'

/-- Model of Go `strings.Trim(s, "\x7b\x7d")`: remove all leading and
trailing braces. -/
def goTrimBraces (l : List Char) : List Char :=
  ((l.dropWhile isBrace).reverse.dropWhile isBrace).reverse

/-- Model of Go `strings.Split(s, ",")`: split on every comma. -/
def splitComma : List Char → List (List Char)
  | [] => [[]]
  | c :: cs =>
    match splitComma cs with
    | [] => [[c]]
    | h :: t => if c == ',' then [] :: h :: t else (c :: h) :: t

/-- The column-array parsing of `ListIndexes` (client.go 336-340): trim the
braces of the scanned textual array representation and, unless the remainder
is empty, split it on every comma. -/
def parseIndexColumns (columnsStr : String) : List String :=
  let t := goTrimBraces columnsStr.data
  if t.isEmpty then [] else (splitComma t).map (fun cs => String.mk cs)

/-- Column metadata as in `interfaces.go` (`ColumnInfo`). -/
structure ColumnInfo where
  name : String := ""
  dataType : String := ""
  isNullable : Bool := false
  defaultValue : String := ""
deriving DecidableEq, Repr

/-- Table metadata as in `interfaces.go` (`TableInfo`); absent fields keep
their Go zero value. -/
structure TableInfo where
  schema : String := ""
  name : String := ""
  type : String := ""
  rowCount : Int := 0
  size : String := ""
  owner : String := ""
  description : String := ""
deriving DecidableEq, Repr

/-- Index metadata as in `interfaces.go` (`IndexInfo`). -/
structure IndexInfo where
  name : String := ""
  table : String := ""
  columns : List String := []
  isUnique : Bool := false
  isPrimary : Bool := false
  indexType : String := ""
deriving DecidableEq, Repr

/-- One scanned row of the `ListIndexes` catalog query: the `array_agg`
column arrives in `columnsStr` as the textual PostgreSQL array
representation, exactly as the code scans it into a `string`. -/
structure IndexRowRaw where
  name : String := ""
  table : String := ""
  columnsStr : String := ""
  isUnique : Bool := false
  isPrimary : Bool := false
  indexType : String := ""
deriving DecidableEq, Repr

/-- One row of `information_schema.columns` as relevant to `DescribeTable`:
the owning schema and table, the ordinal position, and the projected column
record. -/
structure CatColRow where
  tableSchema : String := ""
  tableName : String := ""
  ordinal : Nat := 0
  col : ColumnInfo := {}
deriving DecidableEq, Repr

/-- Query result as in `interfaces.go` (`QueryResult`); `rowCount` is a Go
`int`. -/
structure QueryResult where
  columns : List String := []
  rows : List (List SqlValue) := []
  rowCount : Int := 0
deriving DecidableEq, Repr

/-- Handle to an underlying `sql.DB`. `database/sql` makes `DB.Close`
idempotent (a second `Close` returns nil), so the handle carries its closed
flag. -/
structure DB where
  id : Nat := 0
  closed : Bool := false
deriving DecidableEq, Repr

/-- The `PostgreSQLClientImpl` state (client.go 14-17). -/
structure Client where
  db : Option DB := none
  connectionString : String := ""
deriving DecidableEq, Repr

/-- The `App` state (app.go 30-33); `client` is an interface value and can in
principle be nil. -/
structure App where
  client : Option Client := none
deriving DecidableEq, Repr

/-- Environment variables read by `tryConnect`; Go `os.Getenv` returns the
empty string for an unset variable. -/
structure Env where
  postgresUrl : String := ""
  databaseUrl : String := ""
deriving DecidableEq, Repr

/-- One database round-trip: a liveness ping of a handle, or the execution of
a SQL text. -/
inductive DbOp where
  | ping (id : Nat)
  | sql (text : String)
deriving DecidableEq, Repr

/-- The SQL texts of a round-trip trace, in order. -/
def sqlTexts (ops : List DbOp) : List String :=
  ops.filterMap (fun op => match op with | .sql t => some t | _ => none)

/-- Responses of the driver-and-server world, one field per way the code can
observe the database. -/
structure Oracle where
  /-- does `sql.Open` accept the connection string (no round-trip) -/
  openOk : String → Bool
  /-- does the ping of a freshly opened connection succeed -/
  freshPingOk : String → Bool
  /-- does the ping of the live handle with this id succeed -/
  livePingOk : Nat → Bool
  /-- does the first `Close` of the handle with this id succeed -/
  closeOk : Nat → Bool
  /-- the rows of `information_schema.columns` -/
  columnsCatalog : List CatColRow
  /-- driver failure of the `DescribeTable` catalog query, by schema and table -/
  descFails : String → String → Bool
  /-- scanned rows of the `ListIndexes` catalog query, by schema and table -/
  indexRows : String → String → List IndexRowRaw
  /-- driver failure of the `ListIndexes` catalog query -/
  idxFails : String → String → Bool
  /-- the `pg_stat_user_tables` estimate; `none` models both `sql.ErrNoRows`
  and a NULL estimate, i.e. `rowCount.Valid == false` -/
  statEstimate : String → String → Option Int
  /-- driver failure (other than `sql.ErrNoRows`) of the estimate query -/
  statFails : String → String → Bool
  /-- the integer answer to a `SELECT COUNT(*)` text -/
  countAnswer : String → Int
  /-- driver failure of an arbitrary SQL text -/
  queryFails : String → Bool
  /-- the column names returned for an arbitrary SQL text -/
  rawCols : String → List String
  /-- the raw driver rows returned for an arbitrary SQL text -/
  rawRows : String → List (List SqlValue)
  /-- the rows of the `ListTables` union query, by schema -/
  tablesInSchema : String → List TableInfo
  /-- driver failure of the `ListTables` query -/
  listTablesFails : String → Bool

/-- Default schema constant (app.go 13). -/
def DefaultSchema : String := "public"

/-- SQL template of `DescribeTable` (client.go 208-216), whitespace
normalised. -/
def describeTableSql : String :=
  "SELECT column_name, data_type, is_nullable = \x27YES\x27 as is_nullable, " ++
    "COALESCE(column_default, \x27\x27) as default_value " ++
    "FROM information_schema.columns " ++
    "WHERE table_schema = $1 AND table_name = $2 ORDER BY ordinal_position"

/-- SQL template of `ListTables` (client.go 159-175), whitespace normalised. -/
def listTablesSql : String :=
  "SELECT schemaname, tablename, \x27table\x27 as type, tableowner as owner " ++
    "FROM pg_tables WHERE schemaname = $1 UNION ALL " ++
    "SELECT schemaname, viewname as tablename, \x27view\x27 as type, " ++
    "viewowner as owner FROM pg_views WHERE schemaname = $1 ORDER BY tablename"

/-- SQL template of `ListIndexes` (client.go 301-317), whitespace
normalised. -/
def listIndexesSql : String :=
  "SELECT i.relname as index_name, t.relname as table_name, " ++
    "array_agg(a.attname ORDER BY array_position(ix.indkey, a.attnum)) as columns, " ++
    "ix.indisunique as is_unique, ix.indisprimary as is_primary, " ++
    "am.amname as index_type FROM pg_class t " ++
    "JOIN pg_index ix ON t.oid = ix.indrelid " ++
    "JOIN pg_class i ON i.oid = ix.indexrelid " ++
    "JOIN pg_am am ON i.relam = am.oid " ++
    "JOIN pg_namespace n ON t.relnamespace = n.oid " ++
    "JOIN pg_attribute a ON a.attrelid = t.oid " ++
    "WHERE n.nspname = $1 AND t.relname = $2 AND a.attnum = ANY(ix.indkey) " ++
    "GROUP BY i.relname, t.relname, ix.indisunique, ix.indisprimary, am.amname " ++
    "ORDER BY i.relname"

/-- SQL template of the statistics estimate of `GetTableStats` (client.go
262-265), whitespace normalised. -/
def statsEstimateSql : String :=
  "SELECT COALESCE(n_tup_ins - n_tup_del, 0) as estimated_rows " ++
    "FROM pg_stat_user_tables WHERE schemaname = $1 AND relname = $2"

/-- The fallback exact-count text of `GetTableStats` (client.go 277): raw
string concatenation of the schema and table names between double quotes. -/
def fallbackCountQuery (schema table : String) : String :=
  "SELECT COUNT(*) FROM \"" ++ schema ++ "\".\"" ++ table ++ "\""

/-- Model of `PostgreSQLClientImpl.Ping` (client.go 53-61): nil-handle check,
then one ping round-trip; `database/sql` fails the ping of a closed handle. -/
def Client.ping (o : Oracle) (c : Client) : Except Err Unit × List DbOp :=
  match c.db with
  | none => (.error .noDatabaseConnection, [])
  | some db =>
    if !db.closed && o.livePingOk db.id then (.ok (), [.ping db.id])
    else (.error (.foreign "failed to ping database"), [.ping db.id])

/-- Model of `PostgreSQLClientImpl.Connect` (client.go 25-39). `fresh` is the
identity of the handle produced by `sql.Open`; the `List Nat` component
records the ids of every handle closed during the call. -/
def Client.connect (o : Oracle) (c : Client) (connectionString : String)
    (fresh : Nat) : Except Err Unit × Client × List Nat × List DbOp :=
  if !o.openOk connectionString then
    (.error (.foreign "failed to open database connection"), c, [], [])
  else if !o.freshPingOk connectionString then
    (.error (.foreign "failed to ping database"), c, [fresh], [.ping fresh])
  else
    (.ok (),
      { db := some { id := fresh }, connectionString := connectionString },
      [], [.ping fresh])

/-- Model of `PostgreSQLClientImpl.Close` (client.go 42-50); the underlying
`database/sql` `DB.Close` returns nil when the handle is already closed, and
marks the handle closed even when it reports an error. -/
def Client.close (o : Oracle) (c : Client) : Except Err Unit × Client :=
  match c.db with
  | none => (.ok (), c)
  | some db =>
    if db.closed then (.ok (), c)
    else
      let c' := { c with db := some { db with closed := true } }
      if o.closeOk db.id then (.ok (), c')
      else (.error (.foreign "failed to close database"), c')

/-- Key order on catalog column rows: ordinal position. -/
def ordLe (a b : CatColRow) : Prop := a.ordinal ≤ b.ordinal

instance : DecidableRel ordLe := fun a b => Nat.decLe a.ordinal b.ordinal

instance : IsTotal CatColRow ordLe := ⟨fun a b => Nat.le_total a.ordinal b.ordinal⟩

instance : IsTrans CatColRow ordLe := ⟨fun _ _ _ => Nat.le_trans⟩

/-- The `ORDER BY ordinal_position` of the `DescribeTable` query. -/
def sortByOrdinal (rows : List CatColRow) : List CatColRow :=
  List.insertionSort ordLe rows

/-- Evaluation of the `DescribeTable` catalog query: filter
`information_schema.columns` by schema and table and order by ordinal
position. -/
def describeTableRows (cat : List CatColRow) (schema table : String) :
    List CatColRow :=
  sortByOrdinal
    (cat.filter (fun r => r.tableSchema == schema && r.tableName == table))

/-- Model of `PostgreSQLClientImpl.DescribeTable` (client.go 199-243): a
zero-row catalog answer is reported as `ErrTableNotFound` wrapped with the
table name. -/
def Client.describeTable (o : Oracle) (c : Client) (schema table : String) :
    Except Err (List ColumnInfo) × List DbOp :=
  match c.db with
  | none => (.error .noDatabaseConnection, [])
  | some _ =>
    let schema := if schema == "" then DefaultSchema else schema
    if o.descFails schema table then
      (.error (.foreign "failed to describe table"), [.sql describeTableSql])
    else
      let columns :=
        (describeTableRows o.columnsCatalog schema table).map (fun r => r.col)
      if columns.isEmpty then
        (.error (.wrapped ("table " ++ schema ++ "." ++ table) .tableNotFound),
          [.sql describeTableSql])
      else (.ok columns, [.sql describeTableSql])

/-- Model of `PostgreSQLClientImpl.GetTableStats` (client.go 246-289): prefer
the `pg_stat_user_tables` estimate, and fall back to a raw-concatenated
`SELECT COUNT(*)` when the estimate is invalid (absent or NULL) or zero. -/
def Client.getTableStats (o : Oracle) (c : Client) (schema table : String) :
    Except Err TableInfo × List DbOp :=
  match c.db with
  | none => (.error .noDatabaseConnection, [])
  | some _ =>
    let schema := if schema == "" then DefaultSchema else schema
    let tableInfo : TableInfo := { schema := schema, name := table }
    if o.statFails schema table then
      (.error (.foreign "failed to get table stats"), [.sql statsEstimateSql])
    else
      let est := o.statEstimate schema table
      let valid := est.isSome
      let estVal := est.getD 0
      if !valid || estVal == 0 then
        let actualCountQuery := fallbackCountQuery schema table
        if o.queryFails actualCountQuery then
          (.error (.foreign "failed to get actual row count"),
            [.sql statsEstimateSql, .sql actualCountQuery])
        else
          (.ok { tableInfo with rowCount := o.countAnswer actualCountQuery },
            [.sql statsEstimateSql, .sql actualCountQuery])
      else
        (.ok { tableInfo with rowCount := estVal }, [.sql statsEstimateSql])

/-- Model of `PostgreSQLClientImpl.ListIndexes` (client.go 292-349): each
scanned row's textual array of column names is parsed by
`parseIndexColumns`. -/
def Client.listIndexes (o : Oracle) (c : Client) (schema table : String) :
    Except Err (List IndexInfo) × List DbOp :=
  match c.db with
  | none => (.error .noDatabaseConnection, [])
  | some _ =>
    let schema := if schema == "" then DefaultSchema else schema
    if o.idxFails schema table then
      (.error (.foreign "failed to list indexes"), [.sql listIndexesSql])
    else
      (.ok ((o.indexRows schema table).map (fun r =>
          { name := r.name, table := r.table,
            columns := parseIndexColumns r.columnsStr,
            isUnique := r.isUnique, isPrimary := r.isPrimary,
            indexType := r.indexType })),
        [.sql listIndexesSql])

/-- Model of `PostgreSQLClientImpl.ListTables` (client.go 150-196). -/
def Client.listTables (o : Oracle) (c : Client) (schema : String) :
    Except Err (List TableInfo) × List DbOp :=
  match c.db with
  | none => (.error .noDatabaseConnection, [])
  | some _ =>
    let schema := if schema == "" then DefaultSchema else schema
    if o.listTablesFails schema then
      (.error (.foreign "failed to list tables"), [.sql listTablesSql])
    else (.ok (o.tablesInSchema schema), [.sql listTablesSql])

/-- Model of `PostgreSQLClientImpl.ExecuteQuery` (client.go 392-425): gate
the text with `validateQuery`, then execute it verbatim and materialise the
rows with `processRows`. -/
def Client.executeQuery (o : Oracle) (c : Client) (query : String) :
    Except Err QueryResult × List DbOp :=
  match c.db with
  | none => (.error .noDatabaseConnection, [])
  | some _ =>
    match validateQuery query.data with
    | .error e => (.error e, [])
    | .ok _ =>
      if o.queryFails query then
        (.error (.foreign "failed to execute query"), [.sql query])
      else
        let result := processRows (o.rawRows query)
        (.ok { columns := o.rawCols query, rows := result,
               rowCount := (result.length : Int) },
          [.sql query])

/-- The text sent by `ExplainQuery` (client.go 438). -/
def explainQueryText (query : String) : String :=
  "EXPLAIN (ANALYZE, BUFFERS, FORMAT JSON) " ++ query

/-- Model of `PostgreSQLClientImpl.ExplainQuery` (client.go 428-464). -/
def Client.explainQuery (o : Oracle) (c : Client) (query : String) :
    Except Err QueryResult × List DbOp :=
  match c.db with
  | none => (.error .noDatabaseConnection, [])
  | some _ =>
    match validateQuery query.data with
    | .error e => (.error e, [])
    | .ok _ =>
      let explainQuery := explainQueryText query
      if o.queryFails explainQuery then
        (.error (.foreign "failed to execute explain query"), [.sql explainQuery])
      else
        let result := processRows (o.rawRows explainQuery)
        (.ok { columns := o.rawCols explainQuery, rows := result,
               rowCount := (result.length : Int) },
          [.sql explainQuery])

/-- Model of `App.Disconnect` (app.go 55-63). -/
def App.disconnect (o : Oracle) (a : App) : Except Err Unit × App :=
  match a.client with
  | none => (.ok (), a)
  | some c =>
    match Client.close o c with
    | (.error e, c') =>
      (.error (.wrapped "failed to close database connection" e),
        { client := some c' })
    | (.ok _, c') => (.ok (), { client := some c' })

/-- The connection string selected by `tryConnect` (app.go 285-289):
`POSTGRES_URL`, falling back to `DATABASE_URL`. -/
def envConnString (env : Env) : String :=
  if env.postgresUrl != "" then env.postgresUrl else env.databaseUrl

/-- Model of `App.tryConnect` (app.go 283-304), acting on the app's client,
which is non-nil at every call site. -/
def tryConnectC (o : Oracle) (env : Env) (c : Client) (fresh : Nat) :
    Except Err Unit × Client × List DbOp :=
  let connectionString := envConnString env
  if connectionString == "" then (.error .noConnectionString, c, [])
  else
    let out := Client.connect o c connectionString fresh
    match out.1 with
    | .error e => (.error (.wrapped "failed to connect" e), out.2.1, out.2.2.2)
    | .ok _ => (.ok (), out.2.1, out.2.2.2)

/-- Does `tryConnect` succeed in the given world? -/
def tryConnectOk (o : Oracle) (env : Env) : Bool :=
  envConnString env != "" && o.openOk (envConnString env) &&
    o.freshPingOk (envConnString env)

/-- Does the liveness ping of `ensureConnection` succeed on this client? -/
def Client.pingOkB (o : Oracle) (c : Client) : Bool :=
  match c.db with
  | none => false
  | some db => !db.closed && o.livePingOk db.id

/-- Model of `App.ensureConnection` (app.go 306-326); the final `Nat` counts
the fallback reconnect (`tryConnect`) calls made during this call. -/
def App.ensureConnection (o : Oracle) (env : Env) (a : App) (fresh : Nat) :
    Except Err Unit × App × List DbOp × Nat :=
  match a.client with
  | none => (.error .connectionRequired, a, [], 0)
  | some c =>
    let pr := Client.ping o c
    match pr.1 with
    | .ok _ => (.ok (), a, pr.2, 0)
    | .error _ =>
      let tr := tryConnectC o env c fresh
      match tr.1 with
      | .error _ =>
        (.error .connectionRequired, { client := some tr.2.1 }, pr.2 ++ tr.2.2, 1)
      | .ok _ => (.ok (), { client := some tr.2.1 }, pr.2 ++ tr.2.2, 1)

/-- Model of `App.DescribeTable` (app.go 138-161). -/
def App.describeTable (o : Oracle) (env : Env) (a : App)
    (schema table : String) (fresh : Nat) :
    Except Err (List ColumnInfo) × App × List DbOp :=
  let ec := App.ensureConnection o env a fresh
  match ec.1 with
  | .error e => (.error e, ec.2.1, ec.2.2.1)
  | .ok _ =>
    if table == "" then (.error .tableRequired, ec.2.1, ec.2.2.1)
    else
      let schema := if schema == "" then DefaultSchema else schema
      match ec.2.1.client with
      | none => (.error .connectionRequired, ec.2.1, ec.2.2.1)
      | some c =>
        let dr := Client.describeTable o c schema table
        match dr.1 with
        | .error e =>
          (.error (.wrapped "failed to describe table" e), ec.2.1,
            ec.2.2.1 ++ dr.2)
        | .ok cols => (.ok cols, ec.2.1, ec.2.2.1 ++ dr.2)

/-- Model of `App.ListIndexes` (app.go 190-213). -/
def App.listIndexes (o : Oracle) (env : Env) (a : App)
    (schema table : String) (fresh : Nat) :
    Except Err (List IndexInfo) × App × List DbOp :=
  let ec := App.ensureConnection o env a fresh
  match ec.1 with
  | .error e => (.error e, ec.2.1, ec.2.2.1)
  | .ok _ =>
    if table == "" then (.error .tableRequired, ec.2.1, ec.2.2.1)
    else
      let schema := if schema == "" then DefaultSchema else schema
      match ec.2.1.client with
      | none => (.error .connectionRequired, ec.2.1, ec.2.2.1)
      | some c =>
        let dr := Client.listIndexes o c schema table
        match dr.1 with
        | .error e =>
          (.error (.wrapped "failed to list indexes" e), ec.2.1,
            ec.2.2.1 ++ dr.2)
        | .ok idxs => (.ok idxs, ec.2.1, ec.2.2.1 ++ dr.2)

/-- Model of `App.GetTableStats` (app.go 164-187). -/
def App.getTableStats (o : Oracle) (env : Env) (a : App)
    (schema table : String) (fresh : Nat) :
    Except Err TableInfo × App × List DbOp :=
  let ec := App.ensureConnection o env a fresh
  match ec.1 with
  | .error e => (.error e, ec.2.1, ec.2.2.1)
  | .ok _ =>
    if table == "" then (.error .tableRequired, ec.2.1, ec.2.2.1)
    else
      let schema := if schema == "" then DefaultSchema else schema
      match ec.2.1.client with
      | none => (.error .connectionRequired, ec.2.1, ec.2.2.1)
      | some c =>
        let dr := Client.getTableStats o c schema table
        match dr.1 with
        | .error e =>
          (.error (.wrapped "failed to get table stats" e), ec.2.1,
            ec.2.2.1 ++ dr.2)
        | .ok stats => (.ok stats, ec.2.1, ec.2.2.1 ++ dr.2)

/-- Options of `App.ExecuteQuery` (app.go 23-27); `limit` is a Go `int`. -/
structure ExecuteQueryOptions where
  query : String := ""
  limit : Int := 0
deriving DecidableEq, Repr

/-- Model of `App.ExecuteQuery` (app.go 216-241); `opts = none` models a nil
options pointer, and the limit (when positive) truncates the already-fetched
result. -/
def App.executeQuery (o : Oracle) (env : Env) (a : App)
    (opts : Option ExecuteQueryOptions) (fresh : Nat) :
    Except Err QueryResult × App × List DbOp :=
  let ec := App.ensureConnection o env a fresh
  match ec.1 with
  | .error e => (.error e, ec.2.1, ec.2.2.1)
  | .ok _ =>
    match opts with
    | none => (.error .queryRequired, ec.2.1, ec.2.2.1)
    | some opt =>
      if opt.query == "" then (.error .queryRequired, ec.2.1, ec.2.2.1)
      else
        match ec.2.1.client with
        | none => (.error .connectionRequired, ec.2.1, ec.2.2.1)
        | some c =>
          let dr := Client.executeQuery o c opt.query
          match dr.1 with
          | .error e =>
            (.error (.wrapped "failed to execute query" e), ec.2.1,
              ec.2.2.1 ++ dr.2)
          | .ok result =>
            let result :=
              if opt.limit > 0 && (result.rows.length : Int) > opt.limit then
                let rows := result.rows.take opt.limit.toNat
                { result with rows := rows, rowCount := (rows.length : Int) }
              else result
            (.ok result, ec.2.1, ec.2.2.1 ++ dr.2)

/-- Model of `App.ExplainQuery` (app.go 257-276). -/
def App.explainQuery (o : Oracle) (env : Env) (a : App) (query : String)
    (fresh : Nat) : Except Err QueryResult × App × List DbOp :=
  let ec := App.ensureConnection o env a fresh
  match ec.1 with
  | .error e => (.error e, ec.2.1, ec.2.2.1)
  | .ok _ =>
    if query == "" then (.error .queryRequired, ec.2.1, ec.2.2.1)
    else
      match ec.2.1.client with
      | none => (.error .connectionRequired, ec.2.1, ec.2.2.1)
      | some c =>
        let dr := Client.explainQuery o c query
        match dr.1 with
        | .error e =>
          (.error (.wrapped "failed to explain query" e), ec.2.1,
            ec.2.2.1 ++ dr.2)
        | .ok result => (.ok result, ec.2.1, ec.2.2.1 ++ dr.2)

/-- Options of `App.ListTables` (app.go 17-20). -/
structure ListTablesOptions where
  schema : String := ""
  includeSize : Bool := false
deriving DecidableEq, Repr

/-- The per-table stats loop of `App.ListTables` with `include_size` set
(app.go 121-131): a failing stats call is skipped (`continue`), a successful
one fills row count and size. -/
def statsLoop (o : Oracle) (c : Client) :
    List TableInfo → List TableInfo × List DbOp
  | [] => ([], [])
  | t :: ts =>
    let dr := Client.getTableStats o c t.schema t.name
    let rest := statsLoop o c ts
    match dr.1 with
    | .error _ => (t :: rest.1, dr.2 ++ rest.2)
    | .ok stats =>
      ({ t with rowCount := stats.rowCount, size := stats.size } :: rest.1,
        dr.2 ++ rest.2)

/-- Model of `App.ListTables` (app.go 102-135). -/
def App.listTables (o : Oracle) (env : Env) (a : App)
    (opts : Option ListTablesOptions) (fresh : Nat) :
    Except Err (List TableInfo) × App × List DbOp :=
  let ec := App.ensureConnection o env a fresh
  match ec.1 with
  | .error e => (.error e, ec.2.1, ec.2.2.1)
  | .ok _ =>
    let schema :=
      match opts with
      | some op => if op.schema != "" then op.schema else DefaultSchema
      | none => DefaultSchema
    match ec.2.1.client with
    | none => (.error .connectionRequired, ec.2.1, ec.2.2.1)
    | some c =>
      let dr := Client.listTables o c schema
      match dr.1 with
      | .error e =>
        (.error (.wrapped "failed to list tables" e), ec.2.1, ec.2.2.1 ++ dr.2)
      | .ok tables =>
        match opts with
        | some op =>
          if op.includeSize then
            let out := statsLoop o c tables
            (.ok out.1, ec.2.1, ec.2.2.1 ++ dr.2 ++ out.2)
          else (.ok tables, ec.2.1, ec.2.2.1 ++ dr.2)
        | none => (.ok tables, ec.2.1, ec.2.2.1 ++ dr.2)

/-- Concrete world used by witnesses and counterexamples: every driver call
succeeds, `public.users` has two catalog columns listed out of ordinal order,
`test_table` carries the comma-column index of the repository's integration
test, statistics estimates are absent, and plain queries answer four rows. -/
def sampleOracle : Oracle :=
  { openOk := fun _ => true
    freshPingOk := fun _ => true
    livePingOk := fun _ => true
    closeOk := fun _ => true
    columnsCatalog :=
      [ { tableSchema := "public", tableName := "users", ordinal := 2,
          col := { name := "name", dataType := "text", isNullable := true } },
        { tableSchema := "public", tableName := "users", ordinal := 1,
          col := { name := "id", dataType := "integer" } } ]
    descFails := fun _ _ => false
    indexRows := fun _ _ =>
      [ { name := "idx_with_commas", table := "test_table",
          columnsStr := "\x7b\"col,with,commas\",normal_col\x7d",
          indexType := "btree" } ]
    idxFails := fun _ _ => false
    statEstimate := fun _ _ => none
    statFails := fun _ _ => false
    countAnswer := fun _ => 4
    queryFails := fun _ => false
    rawCols := fun _ => ["id"]
    rawRows := fun _ => [[.vInt 1], [.vInt 2], [.vInt 3], [.vInt 4]]
    tablesInSchema := fun _ =>
      [{ schema := "public", name := "users", type := "table", owner := "o" }]
    listTablesFails := fun _ => false }

/-- A client holding a live handle. -/
def liveClient : Client := { db := some { id := 0 }, connectionString := "postgres://old" }

/-- An app holding a client with a live handle. -/
def liveApp : App := { client := some liveClient }

/-- An app holding a client that never connected. -/
def deadApp : App := { client := some {} }

/-- Environment with a primary connection string configured. -/
def sampleEnv : Env := { postgresUrl := "postgres://env" }

/-- Environment with neither variable set. -/
def emptyEnv : Env := {}

/-- Distribution of `sqlTexts` over trace concatenation. -/
theorem sqlTexts_append (l1 l2 : List DbOp) :
    sqlTexts (l1 ++ l2) = sqlTexts l1 ++ sqlTexts l2 :=
  List.filterMap_append l1 l2 _

/-- A ping round-trip carries no SQL text. -/
theorem sqlTexts_ping_trace (o : Oracle) (c : Client) :
    sqlTexts (Client.ping o c).2 = [] := by
  unfold Client.ping
  rcases c.db with _ | db
  · rfl
  · dsimp only
    split <;> rfl

/-- The trace of `Connect` carries no SQL text. -/
theorem sqlTexts_connect_trace (o : Oracle) (c : Client) (s : String) (fresh : Nat) :
    sqlTexts (Client.connect o c s fresh).2.2.2 = [] := by
  unfold Client.connect
  split
  · rfl
  · split <;> rfl

/-- The trace of `tryConnect` carries no SQL text. -/
theorem sqlTexts_tryConnect_trace (o : Oracle) (env : Env) (c : Client) (fresh : Nat) :
    sqlTexts (tryConnectC o env c fresh).2.2 = [] := by
  by_cases hs : envConnString env = ""
  · simp [tryConnectC, hs, sqlTexts]
  · by_cases ho : o.openOk (envConnString env) = true
    · by_cases hp : o.freshPingOk (envConnString env) = true
      · simp [tryConnectC, Client.connect, hs, ho, hp, sqlTexts]
      · simp [tryConnectC, Client.connect, hs, ho, hp, sqlTexts]
    · simp [tryConnectC, Client.connect, hs, ho, sqlTexts]

/-- The trace of `ensureConnection` carries no SQL text: it only ever pings
and reconnects. -/
theorem sqlTexts_ensure_trace (o : Oracle) (env : Env) (a : App) (fresh : Nat) :
    sqlTexts (App.ensureConnection o env a fresh).2.2.1 = [] := by
  unfold App.ensureConnection
  rcases a.client with _ | c
  · rfl
  · dsimp only
    split
    · exact sqlTexts_ping_trace o c
    · split <;>
        simp [sqlTexts_append, sqlTexts_ping_trace, sqlTexts_tryConnect_trace]

/-- A successful `tryConnect` leaves the client with the fresh open handle. -/
theorem tryConnect_ok_state (o : Oracle) (env : Env) (c : Client) (fresh : Nat)
    (h : (tryConnectC o env c fresh).1 = .ok ()) :
    (tryConnectC o env c fresh).2.1.db = some { id := fresh, closed := false } := by
  by_cases hs : envConnString env = ""
  · simp [tryConnectC, hs] at h
  · by_cases ho : o.openOk (envConnString env) = true
    · by_cases hp : o.freshPingOk (envConnString env) = true
      · simp [tryConnectC, Client.connect, hs, ho, hp]
      · simp [tryConnectC, Client.connect, hs, ho, hp] at h
    · simp [tryConnectC, Client.connect, hs, ho] at h

/-- The result of `tryConnect` is success exactly when the environment holds
a connection string that opens and pings. -/
theorem tryConnect_ok_iff (o : Oracle) (env : Env) (c : Client) (fresh : Nat) :
    ((tryConnectC o env c fresh).1 = .ok ()) ↔ tryConnectOk o env = true := by
  by_cases hs : envConnString env = ""
  · simp [tryConnectC, tryConnectOk, hs]
  · by_cases ho : o.openOk (envConnString env) = true
    · by_cases hp : o.freshPingOk (envConnString env) = true
      · simp [tryConnectC, tryConnectOk, Client.connect, hs, ho, hp]
      · simp [tryConnectC, tryConnectOk, Client.connect, hs, ho, hp]
    · simp [tryConnectC, tryConnectOk, Client.connect, hs, ho]

/-- The liveness ping of a client succeeds exactly when `pingOkB` holds. -/
theorem ping_ok_iff (o : Oracle) (c : Client) :
    ((Client.ping o c).1 = .ok ()) ↔ Client.pingOkB o c = true := by
  unfold Client.ping Client.pingOkB
  rcases c.db with _ | db
  · simp
  · dsimp only
    split <;> simp_all

/-- After a successful `ensureConnection` the app holds a client with an open
handle. -/
theorem ensure_ok_client (o : Oracle) (env : Env) (a : App) (fresh : Nat)
    (h : (App.ensureConnection o env a fresh).1 = .ok ()) :
    ∃ c db, (App.ensureConnection o env a fresh).2.1.client = some c
      ∧ c.db = some db := by
  unfold App.ensureConnection at h ⊢
  rcases hc : a.client with _ | c
  · rw [hc] at h; simp at h
  · rw [hc] at h
    dsimp only at h ⊢
    cases hping : (Client.ping o c).1 with
    | ok u =>
      simp only [hping] at h ⊢
      unfold Client.ping at hping
      rcases hdb : c.db with _ | db
      · rw [hdb] at hping; exact absurd hping (by simp)
      · exact ⟨c, db, hc, hdb⟩
    | error e =>
      simp only [hping] at h ⊢
      cases htr : (tryConnectC o env c fresh).1 with
      | error e2 => simp only [htr] at h; exact absurd h (by simp)
      | ok u2 =>
        simp only [htr]
        exact ⟨(tryConnectC o env c fresh).2.1, { id := fresh },
          rfl, tryConnect_ok_state o env c fresh (by cases u2; exact htr)⟩

/-- Converting a valid code point to a character and back is the identity. -/
theorem charOfNat_toNat {n : Nat} (h : n.isValidChar) : (Char.ofNat n).toNat = n := by
  simp only [Char.ofNat, dif_pos h]
  simp [Char.ofNatAux, Char.toNat, UInt32.toNat]

/-- Code-point arithmetic of the ASCII upper-case map. -/
theorem goToUpper_toNat (c : Char) :
    (goToUpper c).toNat =
      if 97 ≤ c.toNat ∧ c.toNat ≤ 122 then c.toNat - 32 else c.toNat := by
  have hz : goToUpper c =
      if c.toNat ≥ 97 ∧ c.toNat ≤ 122 then Char.ofNat (c.toNat - 32) else c := rfl
  rw [hz]
  by_cases h : 97 ≤ c.toNat ∧ c.toNat ≤ 122
  · rw [if_pos ⟨h.1, h.2⟩, if_pos h]
    exact charOfNat_toNat (Or.inl (by omega))
  · rw [if_neg (fun hh => h ⟨hh.1, hh.2⟩), if_neg h]

/-- No code point in the letter range `A`..`z` is white space. -/
theorem spaceCodes_no_letter {n : Nat} (h1 : 65 ≤ n) (h2 : n ≤ 122) :
    spaceCodes.contains n = false := by
  simp [spaceCodes, List.contains]
  omega

/-- Upper-casing preserves the white-space classification of a character. -/
theorem goIsSpace_goToUpper (c : Char) : goIsSpace (goToUpper c) = goIsSpace c := by
  unfold goIsSpace
  rw [goToUpper_toNat]
  split
  · rename_i h
    rw [spaceCodes_no_letter (n := c.toNat - 32) (by omega) (by omega),
      spaceCodes_no_letter (n := c.toNat) (by omega) (by omega)]
  · rfl

/-- Trimming commutes with upper-casing, because upper-casing preserves the
white-space classification. -/
theorem trimSpace_map_upper (l : List Char) :
    trimSpace (l.map goToUpper) = (trimSpace l).map goToUpper := by
  have hcomp : (goIsSpace ∘ goToUpper) = goIsSpace := funext goIsSpace_goToUpper
  unfold trimSpace dropTrailingSpace
  rw [List.dropWhile_map, hcomp, ← List.map_reverse, List.dropWhile_map, hcomp,
    ← List.map_reverse]

/-- A list is a `hasPref`-prefix of itself followed by anything. -/
theorem hasPref_append_self (p x : List Char) : hasPref p (p ++ x) = true := by
  induction p with
  | nil => rfl
  | cons a as ih => simp [hasPref, ih]

/-- Characterisation of `hasPref` by list append. -/
theorem hasPref_iff_exists (p l : List Char) :
    hasPref p l = true ↔ ∃ t, l = p ++ t := by
  induction p generalizing l with
  | nil => simp [hasPref]
  | cons a as ih =>
    cases l with
    | nil => simp [hasPref]
    | cons b bs =>
      simp only [hasPref, Bool.and_eq_true, beq_iff_eq, ih, List.cons_append,
        List.cons.injEq]
      constructor
      · rintro ⟨rfl, t, rfl⟩; exact ⟨t, rfl, rfl⟩
      · rintro ⟨t, rfl, rfl⟩; exact ⟨rfl, t, rfl⟩

/-- Trimming a list that starts with a non-space character keeps that head
and only trims trailing space. -/
theorem trimSpace_cons_of_not_space (c : Char) (l : List Char)
    (h : goIsSpace c = false) :
    trimSpace (c :: l) = c :: dropTrailingSpace l := by
  unfold trimSpace
  rw [List.dropWhile_cons, if_neg (by simp [h])]
  unfold dropTrailingSpace
  rw [show (c :: l).reverse = l.reverse ++ [c] by simp,
    List.dropWhile_append]
  split
  · rename_i he
    rw [List.isEmpty_iff] at he
    rw [he, List.dropWhile_cons]
    simp [h]
  · simp [List.reverse_append]

/-- Dropping trailing space from a list that starts with a keyword whose last
character is not space keeps the keyword as a prefix. -/
theorem hasPref_dropTrailing (p u : List Char) (hp : p ≠ [])
    (hl : goIsSpace (p.getLast hp) = false) :
    hasPref p (dropTrailingSpace (p ++ u)) = true := by
  unfold dropTrailingSpace
  rw [List.reverse_append, List.dropWhile_append]
  split
  · have hrev : p.reverse = p.getLast hp :: p.dropLast.reverse := by
      conv in p.reverse => rw [← List.dropLast_append_getLast hp]
      simp
    rw [hrev, List.dropWhile_cons, if_neg (by simp [hl]), ← hrev]
    rw [List.reverse_reverse]
    simpa using hasPref_append_self p []
  · rw [List.reverse_append, List.reverse_reverse]
    exact hasPref_append_self p _

/-- A query whose upper-cased head is a non-space character other than `S`
and `W` is rejected by the safety gate. -/
theorem reject_of_head (c : Char) (S : List Char)
    (hns : goIsSpace (goToUpper c) = false)
    (hS : goToUpper c ≠ 'S') (hW : goToUpper c ≠ 'W') :
    validateQuery (c :: S) = .error .invalidQuery := by
  have h1 : hasPref selectKeyword (goToUpper c :: dropTrailingSpace (S.map goToUpper)) = false := by
    show (('S' == goToUpper c) && _) = false
    simp [beq_eq_false_iff_ne, Ne.symm hS]
  have h2 : hasPref withKeyword (goToUpper c :: dropTrailingSpace (S.map goToUpper)) = false := by
    show (('W' == goToUpper c) && _) = false
    simp [beq_eq_false_iff_ne, Ne.symm hW]
  simp only [validateQuery]
  rw [List.map_cons, trimSpace_cons_of_not_space _ _ hns, h1, h2]
  rfl

/-- A query that starts with a spelling of a safe keyword (any casing) is
accepted by the safety gate. -/
theorem accept_of_keyword (K S : List Char)
    (hK : K.map goToUpper = selectKeyword ∨ K.map goToUpper = withKeyword)
    (hpre : hasPref K S = true) :
    validateQuery S = .ok () := by
  obtain ⟨t, rfl⟩ := (hasPref_iff_exists K S).mp hpre
  rcases hK with hK | hK
  · have hsel : hasPref selectKeyword (trimSpace ((K ++ t).map goToUpper)) = true := by
      rw [List.map_append, hK]
      simp only [selectKeyword]
      rw [List.cons_append, trimSpace_cons_of_not_space _ _ (by decide)]
      simp only [hasPref]
      rw [hasPref_dropTrailing ['E', 'L', 'E', 'C', 'T'] (t.map goToUpper)
        (by decide) (by decide)]
      decide
    simp only [validateQuery]
    rw [hsel]
    simp
  · have hwit : hasPref withKeyword (trimSpace ((K ++ t).map goToUpper)) = true := by
      rw [List.map_append, hK]
      simp only [withKeyword]
      rw [List.cons_append, trimSpace_cons_of_not_space _ _ (by decide)]
      simp only [hasPref]
      rw [hasPref_dropTrailing ['I', 'T', 'H'] (t.map goToUpper)
        (by decide) (by decide)]
      decide
    simp only [validateQuery]
    rw [hwit]
    simp

/-- The raw keyword spellings rejected by the safety gate, per the
specification. -/
def rejectedKeywords : List (List Char) :=
  [['I', 'N', 'S', 'E', 'R', 'T'],
   ['U', 'P', 'D', 'A', 'T', 'E'],
   ['D', 'E', 'L', 'E', 'T', 'E'],
   ['D', 'R', 'O', 'P'],
   ['C', 'R', 'E', 'A', 'T', 'E'],
   ['A', 'L', 'T', 'E', 'R']]

/-- C1: the query safety gate accepts a SQL string exactly when the
upper-cased, whitespace-trimmed form of the string starts with `SELECT` or
`WITH`; any casing of those keywords is accepted, strings beginning with
`INSERT`, `UPDATE`, `DELETE`, `DROP`, `CREATE` or `ALTER` are rejected with
`ErrInvalidQuery`, and so are empty or whitespace-only strings. -/
theorem validateQuery_spec (S : List Char) :
    ((validateQuery S = .ok ()) ↔
        (hasPref selectKeyword ((trimSpace S).map goToUpper) = true
          ∨ hasPref withKeyword ((trimSpace S).map goToUpper) = true))
    ∧ (trimSpace S = [] → validateQuery S = .error .invalidQuery)
    ∧ (∀ K, K ∈ rejectedKeywords → hasPref K S = true →
        validateQuery S = .error .invalidQuery)
    ∧ (∀ K, (K.map goToUpper = selectKeyword ∨ K.map goToUpper = withKeyword) →
        hasPref K S = true → validateQuery S = .ok ()) := by
  refine ⟨?_, ?_, ?_, fun K hK hp => accept_of_keyword K S hK hp⟩
  · simp only [validateQuery]
    rw [trimSpace_map_upper]
    cases h1 : hasPref selectKeyword ((trimSpace S).map goToUpper) <;>
      cases h2 : hasPref withKeyword ((trimSpace S).map goToUpper) <;>
        simp [h1, h2]
  · intro h
    simp only [validateQuery]
    rw [trimSpace_map_upper, h]
    rfl
  · intro K hK hp
    simp only [rejectedKeywords, List.mem_cons, List.not_mem_nil, or_false] at hK
    rcases hK with rfl | rfl | rfl | rfl | rfl | rfl <;>
      obtain ⟨t, rfl⟩ := (hasPref_iff_exists _ _).mp hp
    · exact reject_of_head 'I' (['N', 'S', 'E', 'R', 'T'] ++ t)
        (by decide) (by decide) (by decide)
    · exact reject_of_head 'U' (['P', 'D', 'A', 'T', 'E'] ++ t)
        (by decide) (by decide) (by decide)
    · exact reject_of_head 'D' (['E', 'L', 'E', 'T', 'E'] ++ t)
        (by decide) (by decide) (by decide)
    · exact reject_of_head 'D' (['R', 'O', 'P'] ++ t)
        (by decide) (by decide) (by decide)
    · exact reject_of_head 'C' (['R', 'E', 'A', 'T', 'E'] ++ t)
        (by decide) (by decide) (by decide)
    · exact reject_of_head 'A' (['L', 'T', 'E', 'R'] ++ t)
        (by decide) (by decide) (by decide)

/-- Witness for C1 at concrete inputs: a mixed-case `select` is accepted, an
`INSERT` and a whitespace-only string are rejected. -/
theorem validateQuery_spec_witness :
    validateQuery ("sElEcT * FROM t".data) = .ok ()
      ∧ validateQuery ("INSERT INTO t VALUES (1)".data) = .error .invalidQuery
      ∧ validateQuery ("   ".data) = .error .invalidQuery := by
  refine ⟨?_, ?_, ?_⟩
  · exact (validateQuery_spec ("sElEcT * FROM t".data)).2.2.2 ("sElEcT".data)
      (Or.inl (by decide)) (by decide)
  · exact (validateQuery_spec _).2.2.1 ("INSERT".data) (by decide) (by decide)
  · exact (validateQuery_spec _).2.1 (by decide)

/-- C2: `ensureConnection` fails with `ErrConnectionRequired` when the app has
no client; otherwise, when the liveness ping succeeds it proceeds with no
reconnect attempt, and when the ping fails (including when no handle exists)
it makes exactly one `tryConnect` attempt, proceeding if that attempt
succeeds and failing with `ErrConnectionRequired` if it fails; in every case
at most one reconnect attempt is made. -/
theorem ensureConnection_spec (o : Oracle) (env : Env) (a : App) (fresh : Nat) :
    (App.ensureConnection o env a fresh).2.2.2 ≤ 1
    ∧ (match a.client with
       | none =>
         (App.ensureConnection o env a fresh).1 = .error .connectionRequired
           ∧ (App.ensureConnection o env a fresh).2.2.2 = 0
       | some c =>
         if Client.pingOkB o c then
           (App.ensureConnection o env a fresh).1 = .ok ()
             ∧ (App.ensureConnection o env a fresh).2.2.2 = 0
         else
           (App.ensureConnection o env a fresh).2.2.2 = 1
             ∧ (App.ensureConnection o env a fresh).1 =
                 (if tryConnectOk o env then .ok () else .error .connectionRequired)) := by
  rcases hc : a.client with _ | c
  · refine ⟨?_, ?_, ?_⟩ <;> simp [App.ensureConnection, hc]
  · by_cases hping : Client.pingOkB o c = true
    · have hok : (Client.ping o c).1 = .ok () := (ping_ok_iff o c).mpr hping
      have heval : App.ensureConnection o env a fresh = (.ok (), a, (Client.ping o c).2, 0) := by
        unfold App.ensureConnection
        rw [hc]
        dsimp only
        rw [hok]
      rw [heval]
      simp [hping]
    · cases hres : (Client.ping o c).1 with
      | ok u =>
        cases u
        exact absurd ((ping_ok_iff o c).mp hres) hping
      | error e =>
        by_cases htc : tryConnectOk o env = true
        · have htr : (tryConnectC o env c fresh).1 = .ok () :=
            (tryConnect_ok_iff o env c fresh).mpr htc
          have heval : App.ensureConnection o env a fresh =
              (.ok (), { client := some (tryConnectC o env c fresh).2.1 },
                (Client.ping o c).2 ++ (tryConnectC o env c fresh).2.2, 1) := by
            unfold App.ensureConnection
            rw [hc]
            dsimp only
            rw [hres, htr]
          rw [heval]
          simp [hping, htc]
        · cases htr : (tryConnectC o env c fresh).1 with
          | ok u2 =>
            cases u2
            exact absurd ((tryConnect_ok_iff o env c fresh).mp htr) htc
          | error e2 =>
            have heval : App.ensureConnection o env a fresh =
                (.error .connectionRequired,
                  { client := some (tryConnectC o env c fresh).2.1 },
                  (Client.ping o c).2 ++ (tryConnectC o env c fresh).2.2, 1) := by
              unfold App.ensureConnection
              rw [hc]
              dsimp only
              rw [hres, htr]
            rw [heval]
            simp [hping, htc]

/-- C7: the row materialiser decodes every raw byte-sequence cell to the text
of the same bytes, passes every other native value through unchanged and
preserves both row order and per-row column order. -/
theorem processRows_spec (rows : List (List SqlValue)) :
    (processRows rows).length = rows.length
    ∧ (∀ (i j : Nat), ((processRows rows)[i]?.bind fun r : List SqlValue => r[j]?)
          = ((rows[i]?.bind fun r : List SqlValue => r[j]?).map convertValue))
    ∧ (∀ bs, convertValue (SqlValue.vBytes bs) = SqlValue.vString bs)
    ∧ (∀ v, (¬ ∃ bs, v = SqlValue.vBytes bs) → convertValue v = v) := by
  refine ⟨by simp [processRows], ?_, fun bs => rfl, ?_⟩
  · intro i j
    simp only [processRows, List.getElem?_map]
    cases rows[i]? with
    | none => rfl
    | some r => simp [List.getElem?_map]
  · intro v hv
    cases v with
    | vBytes bs => exact absurd ⟨bs, rfl⟩ hv
    | vNull => rfl
    | vBool b => rfl
    | vInt i => rfl
    | vFloat b => rfl
    | vString s => rfl

/-- Witness for C7 at a concrete row set and a concrete non-byte value. -/
theorem processRows_spec_witness :
    (processRows [[SqlValue.vInt 1, SqlValue.vBytes [104, 105]],
        [SqlValue.vNull]]).length = 2
    ∧ convertValue (SqlValue.vInt 7) = SqlValue.vInt 7 := by
  refine ⟨?_, ?_⟩
  · exact (processRows_spec _).1
  · exact (processRows_spec []).2.2.2 (SqlValue.vInt 7)
      (by rintro ⟨bs, h⟩; cases h)

/-- C9: `Disconnect` never errors on the second of two consecutive calls,
whether a connection was ever opened or the handle is already closed, because
the underlying handle close is idempotent. -/
theorem disconnect_idem (o : Oracle) (a : App) :
    (App.disconnect o (App.disconnect o a).2).1 = .ok () := by
  rcases hc : a.client with _ | c
  · simp [App.disconnect, hc]
  · rcases hdb : c.db with _ | db
    · simp [App.disconnect, Client.close, hc, hdb]
    · by_cases hcl : db.closed = true
      · simp [App.disconnect, Client.close, hc, hdb, hcl]
      · by_cases hk : o.closeOk db.id = true
        · simp [App.disconnect, Client.close, hc, hdb, hcl, hk]
        · simp [App.disconnect, Client.close, hc, hdb, hcl, hk]

/-- The `errors.Is` model matches an error against itself. -/
theorem errIs_self (e : Err) : errIs e e = true := by
  unfold errIs
  simp

/-- The `errors.Is` model looks through one `fmt.Errorf` wrap. -/
theorem errIs_wrapped (m : String) (e t : Err) (h : errIs e t = true) :
    errIs (.wrapped m e) t = true := by
  unfold errIs
  simp [h]

/-- C3 (code bug): for an index over the quoted column `"col,with,commas"`
plus `normal_col`, whose catalog array text is
`\x7b"col,with,commas",normal_col\x7d`, `ListIndexes` reports 4 column names
because it splits the printed array representation on every comma — not the
2 columns the specification (and the repository's own integration test
`idx_with_commas`) requires. -/
theorem listIndexes_comma_split_bug :
    (Client.listIndexes sampleOracle liveClient "public" "test_table").1 =
        .ok [{ name := "idx_with_commas", table := "test_table",
               columns := ["\"col", "with", "commas\"", "normal_col"],
               indexType := "btree" }]
    ∧ (parseIndexColumns "\x7b\"col,with,commas\",normal_col\x7d").length = 4 := by
  constructor
  · decide
  · decide

/-- C4 counterexample: the client holds the live handle 0, `Connect`
succeeds with a new string, and the list of handles closed during the call
is empty — the old handle is never closed, refuting "closing the old handle
first if one was live". -/
theorem connect_leaves_old_open_counterexample :
    liveClient.db = some { id := 0, closed := false }
    ∧ (Client.connect sampleOracle liveClient "postgres://new" 1).1 = .ok ()
    ∧ (Client.connect sampleOracle liveClient "postgres://new" 1).2.2.1 = [] := by
  refine ⟨rfl, ?_, ?_⟩ <;> decide

/-- C4 (amended): `Connect` opens a new connection and verifies it with a
ping; on success it replaces any existing connection with the new handle and
stores the new connection string without closing the previously held handle;
on open failure or ping failure it leaves the prior handle and stored string
untouched and reports a connection error, closing the newly opened handle
only in the ping-failure case. -/
theorem connect_spec (o : Oracle) (c : Client) (s : String) (fresh : Nat) :
    (if o.openOk s then
       if o.freshPingOk s then
         (Client.connect o c s fresh).1 = .ok ()
           ∧ (Client.connect o c s fresh).2.1 =
               { db := some { id := fresh }, connectionString := s }
           ∧ (Client.connect o c s fresh).2.2.1 = []
       else
         (Client.connect o c s fresh).1 =
             .error (.foreign "failed to ping database")
           ∧ (Client.connect o c s fresh).2.1 = c
           ∧ (Client.connect o c s fresh).2.2.1 = [fresh]
     else
       (Client.connect o c s fresh).1 =
           .error (.foreign "failed to open database connection")
         ∧ (Client.connect o c s fresh).2.1 = c
         ∧ (Client.connect o c s fresh).2.2.1 = []) := by
  by_cases ho : o.openOk s = true
  · by_cases hp : o.freshPingOk s = true
    · simp [Client.connect, ho, hp]
    · simp [Client.connect, ho, hp]
  · simp [Client.connect, ho]

/-- C5: with a positive limit smaller than the number of fetched rows,
`execute_query` returns exactly the first `limit` rows with `row_count =
limit`; the truncation is client-side, after execution: the only SQL text
sent to the database is the caller's query, verbatim. -/
theorem executeQuery_limit_spec (o : Oracle) (env : Env) (a : App)
    (opt : ExecuteQueryOptions) (fresh : Nat)
    (hconn : (App.ensureConnection o env a fresh).1 = .ok ())
    (hq : opt.query ≠ "")
    (hvalid : validateQuery opt.query.data = .ok ())
    (hfail : o.queryFails opt.query = false)
    (hpos : 0 < opt.limit)
    (hbig : opt.limit < ((processRows (o.rawRows opt.query)).length : Int)) :
    (App.executeQuery o env a (some opt) fresh).1 =
        .ok { columns := o.rawCols opt.query,
              rows := (processRows (o.rawRows opt.query)).take opt.limit.toNat,
              rowCount := opt.limit }
    ∧ sqlTexts (App.executeQuery o env a (some opt) fresh).2.2 = [opt.query] := by
  obtain ⟨c, db, hcl, hdb⟩ := ensure_ok_client o env a fresh hconn
  have hclient : Client.executeQuery o c opt.query =
      (.ok { columns := o.rawCols opt.query,
             rows := processRows (o.rawRows opt.query),
             rowCount := ((processRows (o.rawRows opt.query)).length : Int) },
        [.sql opt.query]) := by
    simp [Client.executeQuery, hdb, hvalid, hfail]
  have hlen : ((processRows (o.rawRows opt.query)).take opt.limit.toNat).length
      = opt.limit.toNat := by
    rw [List.length_take]
    omega
  constructor
  · simp only [App.executeQuery, hconn, hcl, hclient]
    rw [show (opt.query == "") = false from beq_eq_false_iff_ne.mpr hq]
    simp only [Bool.false_eq_true, if_false]
    rw [if_pos (by simp [hpos, hbig])]
    simp [hlen, Int.toNat_of_nonneg hpos.le]
  · simp only [App.executeQuery, hconn, hcl, hclient]
    rw [show (opt.query == "") = false from beq_eq_false_iff_ne.mpr hq]
    simp only [Bool.false_eq_true, if_false]
    rw [sqlTexts_append, sqlTexts_ensure_trace]
    rfl

/-- Witness for C5: in the sample world (four fetched rows) with limit 2 the
call returns the first two rows with `row_count = 2` and sends exactly the
original query text. -/
theorem executeQuery_limit_spec_witness :
    (App.executeQuery sampleOracle sampleEnv liveApp
        (some { query := "SELECT id FROM test_users", limit := 2 }) 1).1 =
      .ok { columns := ["id"],
            rows := [[SqlValue.vInt 1], [SqlValue.vInt 2]],
            rowCount := 2 }
    ∧ sqlTexts (App.executeQuery sampleOracle sampleEnv liveApp
        (some { query := "SELECT id FROM test_users", limit := 2 }) 1).2.2 =
      ["SELECT id FROM test_users"] := by
  have h := executeQuery_limit_spec sampleOracle sampleEnv liveApp
    { query := "SELECT id FROM test_users", limit := 2 } 1
    (by decide) (by decide) (by decide) (by decide) (by decide) (by decide)
  exact ⟨by rw [h.1]; decide, h.2⟩

/-- C6: `DescribeTable` fails with an error matching `ErrTableNotFound`
exactly when the catalog column query returns zero rows for the effective
schema and table; when at least one row matches, it returns the column list
ordered by ordinal position with no error. -/
theorem describeTable_spec (o : Oracle) (c : Client) (schema table : String)
    (eff : String) (ms : List CatColRow)
    (hdb : c.db.isSome = true)
    (heff : eff = if schema == "" then DefaultSchema else schema)
    (hms : ms = o.columnsCatalog.filter
        (fun r => r.tableSchema == eff && r.tableName == table))
    (hok : o.descFails eff table = false) :
    ((match (Client.describeTable o c schema table).1 with
        | .error e => errIs e .tableNotFound
        | .ok _ => false) = true ↔ ms = [])
    ∧ (ms ≠ [] →
        (Client.describeTable o c schema table).1 =
            .ok ((sortByOrdinal ms).map (fun r => r.col))
          ∧ List.Sorted ordLe (sortByOrdinal ms)
          ∧ (sortByOrdinal ms).Perm ms) := by
  subst heff
  subst hms
  rcases hdb2 : c.db with _ | db
  · rw [hdb2] at hdb
    exact absurd hdb (by simp)
  · by_cases hemp : o.columnsCatalog.filter
        (fun r => r.tableSchema == (if schema == "" then DefaultSchema else schema)
          && r.tableName == table) = []
    · have hcols : ((describeTableRows o.columnsCatalog
          (if schema == "" then DefaultSchema else schema) table).map
            (fun r => r.col)).isEmpty = true := by
        unfold describeTableRows
        rw [hemp]
        rfl
      have heval : (Client.describeTable o c schema table).1 =
          .error (.wrapped
            ("table " ++ (if schema == "" then DefaultSchema else schema)
              ++ "." ++ table) .tableNotFound) := by
        simp only [Client.describeTable, hdb2, hok, Bool.false_eq_true, if_false,
          hcols, if_true]
      rw [heval]
      refine ⟨⟨fun _ => hemp, fun _ => errIs_wrapped _ _ _ (errIs_self _)⟩,
        fun h => absurd hemp h⟩
    · have hsne : sortByOrdinal (o.columnsCatalog.filter
          (fun r => r.tableSchema == (if schema == "" then DefaultSchema else schema)
            && r.tableName == table)) ≠ [] := by
        intro h0
        apply hemp
        have hperm := List.perm_insertionSort ordLe (o.columnsCatalog.filter
          (fun r => r.tableSchema == (if schema == "" then DefaultSchema else schema)
            && r.tableName == table))
        unfold sortByOrdinal at h0
        rw [h0] at hperm
        exact hperm.symm.eq_nil
      have hcols : ((describeTableRows o.columnsCatalog
          (if schema == "" then DefaultSchema else schema) table).map
            (fun r => r.col)).isEmpty = false := by
        unfold describeTableRows
        rw [← Bool.not_eq_true, List.isEmpty_iff]
        intro hmapnil
        exact hsne (by simpa using hmapnil)
      have heval : (Client.describeTable o c schema table).1 =
          .ok ((describeTableRows o.columnsCatalog
            (if schema == "" then DefaultSchema else schema) table).map
              (fun r => r.col)) := by
        simp only [Client.describeTable, hdb2, hok, Bool.false_eq_true, if_false,
          hcols]
      rw [heval]
      refine ⟨⟨fun h => absurd h (by simp), fun h => absurd h hemp⟩,
        fun _ => ⟨rfl, ?_, ?_⟩⟩
      · exact List.sorted_insertionSort ordLe _
      · exact List.perm_insertionSort ordLe _

/-- Witness for C6: in the sample world `public.users` has two catalog rows
listed out of order; `DescribeTable` returns them ordered by ordinal, and a
table with no catalog rows fails with an error matching `ErrTableNotFound`. -/
theorem describeTable_spec_witness :
    (Client.describeTable sampleOracle liveClient "public" "users").1 =
      .ok [{ name := "id", dataType := "integer" },
           { name := "name", dataType := "text", isNullable := true }]
    ∧ (match (Client.describeTable sampleOracle liveClient "public" "missing").1 with
        | .error e => errIs e .tableNotFound
        | .ok _ => false) = true := by
  constructor
  · have h := (describeTable_spec sampleOracle liveClient "public" "users"
      "public"
      (sampleOracle.columnsCatalog.filter
        (fun r => r.tableSchema == "public" && r.tableName == "users"))
      (by decide) (by decide) rfl (by decide)).2 (by decide)
    rw [h.1]
    decide
  · exact (describeTable_spec sampleOracle liveClient "public" "missing"
      "public"
      (sampleOracle.columnsCatalog.filter
        (fun r => r.tableSchema == "public" && r.tableName == "missing"))
      (by decide) (by decide) rfl (by decide)).1.mpr (by decide)

/-- C8 counterexample: with a live connection, `describe_table` with an empty
table name does return `ErrTableRequired`, but only after a liveness ping —
the call's round-trip trace is `[ping 0]`, not empty, so the detection does
not happen before any database round-trip; and with no usable connection and
no environment fallback, the same call fails with `ErrConnectionRequired`
instead of `ErrTableRequired`. -/
theorem requiredParam_roundtrip_counterexample :
    ((App.describeTable sampleOracle sampleEnv liveApp "public" "" 1).1 =
        .error .tableRequired
      ∧ (App.describeTable sampleOracle sampleEnv liveApp "public" "" 1).2.2 =
          [DbOp.ping 0])
    ∧ (App.describeTable sampleOracle emptyEnv deadApp "public" "" 1).1 =
        .error .connectionRequired := by
  refine ⟨⟨?_, ?_⟩, ?_⟩ <;> decide

/-- C8 (amended): whenever the connection check of `ensureConnection`
succeeds, each façade operation with a missing required parameter fails with
its `TableRequired`/`QueryRequired` error and executes no SQL statement (the
check precedes the operation's own database query); the liveness ping and a
possible reconnect of `ensureConnection`, however, run before the parameter
check, and when they fail the call reports `ErrConnectionRequired` instead. -/
theorem requiredParam_spec (o : Oracle) (env : Env) (a : App) (fresh : Nat)
    (schema : String)
    (hconn : (App.ensureConnection o env a fresh).1 = .ok ()) :
    ((App.describeTable o env a schema "" fresh).1 = .error .tableRequired
      ∧ sqlTexts (App.describeTable o env a schema "" fresh).2.2 = [])
    ∧ ((App.listIndexes o env a schema "" fresh).1 = .error .tableRequired
      ∧ sqlTexts (App.listIndexes o env a schema "" fresh).2.2 = [])
    ∧ ((App.getTableStats o env a schema "" fresh).1 = .error .tableRequired
      ∧ sqlTexts (App.getTableStats o env a schema "" fresh).2.2 = [])
    ∧ ((App.executeQuery o env a none fresh).1 = .error .queryRequired
      ∧ sqlTexts (App.executeQuery o env a none fresh).2.2 = [])
    ∧ (∀ L, (App.executeQuery o env a (some { query := "", limit := L }) fresh).1
          = .error .queryRequired
      ∧ sqlTexts (App.executeQuery o env a
          (some { query := "", limit := L }) fresh).2.2 = [])
    ∧ ((App.explainQuery o env a "" fresh).1 = .error .queryRequired
      ∧ sqlTexts (App.explainQuery o env a "" fresh).2.2 = []) := by
  refine ⟨⟨?_, ?_⟩, ⟨?_, ?_⟩, ⟨?_, ?_⟩, ⟨?_, ?_⟩, fun L => ⟨?_, ?_⟩, ⟨?_, ?_⟩⟩
  · simp [App.describeTable, hconn]
  · simp [App.describeTable, hconn, sqlTexts_ensure_trace]
  · simp [App.listIndexes, hconn]
  · simp [App.listIndexes, hconn, sqlTexts_ensure_trace]
  · simp [App.getTableStats, hconn]
  · simp [App.getTableStats, hconn, sqlTexts_ensure_trace]
  · simp [App.executeQuery, hconn]
  · simp [App.executeQuery, hconn, sqlTexts_ensure_trace]
  · simp [App.executeQuery, hconn]
  · simp [App.executeQuery, hconn, sqlTexts_ensure_trace]
  · simp [App.explainQuery, hconn]
  · simp [App.explainQuery, hconn, sqlTexts_ensure_trace]

/-- Witness for C8 amended, in the sample world with a live connection. -/
theorem requiredParam_spec_witness :
    (App.describeTable sampleOracle sampleEnv liveApp "public" "" 1).1 =
        .error .tableRequired
      ∧ sqlTexts (App.executeQuery sampleOracle sampleEnv liveApp none 1).2.2 = [] :=
  ⟨(requiredParam_spec sampleOracle sampleEnv liveApp 1 "public" (by decide)).1.1,
   (requiredParam_spec sampleOracle sampleEnv liveApp 1 "public" (by decide)).2.2.2.1.2⟩

/-- Trace of `GetTableStats` when the statistics estimate is absent or zero:
the estimate query is followed by the raw-concatenated fallback count. -/
theorem getTableStats_trace (o : Oracle) (c : Client) (schema table eff : String)
    (hdb : c.db.isSome = true)
    (heff : eff = if schema == "" then DefaultSchema else schema)
    (hsf : o.statFails eff table = false)
    (hest : o.statEstimate eff table = none ∨ o.statEstimate eff table = some 0) :
    (Client.getTableStats o c schema table).2 =
      [.sql statsEstimateSql, .sql (fallbackCountQuery eff table)] := by
  subst heff
  rcases hdb2 : c.db with _ | db
  · rw [hdb2] at hdb
    exact absurd hdb (by simp)
  · have hcond :
        (!(o.statEstimate (if schema == "" then DefaultSchema else schema) table).isSome
          || (o.statEstimate (if schema == "" then DefaultSchema else schema)
              table).getD 0 == 0) = true := by
      rcases hest with h | h <;> rw [h] <;> rfl
    simp only [Client.getTableStats, hdb2, hsf, Bool.false_eq_true, if_false,
      hcond, if_true]
    split <;> split <;> rfl

/-- The trace of the `ListTables` stats loop over a cons cell. -/
theorem statsLoop_trace_cons (o : Oracle) (c : Client) (hd : TableInfo)
    (tl : List TableInfo) :
    (statsLoop o c (hd :: tl)).2 =
      (Client.getTableStats o c hd.schema hd.name).2 ++ (statsLoop o c tl).2 := by
  simp only [statsLoop]
  cases (Client.getTableStats o c hd.schema hd.name).1 <;> rfl

/-- Every round-trip of the stats call for a listed table appears in the
stats-loop trace. -/
theorem statsLoop_op_mem (o : Oracle) (c : Client) (ts : List TableInfo)
    (t : TableInfo) (ht : t ∈ ts) (op : DbOp)
    (hop : op ∈ (Client.getTableStats o c t.schema t.name).2) :
    op ∈ (statsLoop o c ts).2 := by
  induction ts with
  | nil => cases ht
  | cons hd tl ih =>
    rw [statsLoop_trace_cons]
    rcases List.mem_cons.mp ht with heq | hmem
    · subst heq
      exact List.mem_append_left _ hop
    · exact List.mem_append_right _ (ih hmem)

/-- A SQL operation in a trace contributes its text to `sqlTexts`. -/
theorem mem_sqlTexts_of_mem (ops : List DbOp) (q : String)
    (h : DbOp.sql q ∈ ops) : q ∈ sqlTexts ops := by
  unfold sqlTexts
  exact List.mem_filterMap.mpr ⟨.sql q, h, rfl⟩

/-- C10: whenever the statistics estimate is absent or zero, `GetTableStats`
builds its fallback exact-count SQL by raw string concatenation
`SELECT COUNT(*) FROM "` + schema + `"."` + table + `"` with no escaping, so
the schema and table names are embedded verbatim (identifier injection,
unlike the parameterised estimate query before it), and this text reaches
the database both from the public `get_table_stats` operation and from
`list_tables` with `include_size` for every listed table. -/
theorem getTableStats_injection_spec (o : Oracle) (env : Env) (a : App)
    (c : Client) (schema table : String) (fresh : Nat) (t : TableInfo)
    (eff efft ls : String)
    (heff : eff = if schema == "" then DefaultSchema else schema)
    (hefft : efft = if t.schema == "" then DefaultSchema else t.schema)
    (hls : ls = if schema != "" then schema else DefaultSchema) :
    ((fallbackCountQuery eff table).data =
        ("SELECT COUNT(*) FROM \"").data ++ eff.data ++ ("\".\"").data
          ++ table.data ++ ("\"").data)
    ∧ List.IsInfix table.data (fallbackCountQuery eff table).data
    ∧ List.IsInfix eff.data (fallbackCountQuery eff table).data
    ∧ (c.db.isSome = true → o.statFails eff table = false →
        (o.statEstimate eff table = none ∨ o.statEstimate eff table = some 0) →
        sqlTexts (Client.getTableStats o c schema table).2 =
          [statsEstimateSql, fallbackCountQuery eff table])
    ∧ ((App.ensureConnection o env a fresh).1 = .ok () → table ≠ "" →
        o.statFails eff table = false →
        (o.statEstimate eff table = none ∨ o.statEstimate eff table = some 0) →
        sqlTexts (App.getTableStats o env a schema table fresh).2.2 =
          [statsEstimateSql, fallbackCountQuery eff table])
    ∧ ((App.ensureConnection o env a fresh).1 = .ok () →
        o.listTablesFails ls = false →
        t ∈ o.tablesInSchema ls →
        o.statFails efft t.name = false →
        (o.statEstimate efft t.name = none ∨ o.statEstimate efft t.name = some 0) →
        fallbackCountQuery efft t.name ∈
          sqlTexts (App.listTables o env a
            (some { schema := schema, includeSize := true }) fresh).2.2) := by
  have hdata : (fallbackCountQuery eff table).data =
      ("SELECT COUNT(*) FROM \"").data ++ eff.data ++ ("\".\"").data
        ++ table.data ++ ("\"").data := by
    simp [fallbackCountQuery, String.data_append, List.append_assoc]
  have heff2 : eff = if eff == "" then DefaultSchema else eff := by
    subst heff
    by_cases hs : schema = "" <;> simp [hs]
  refine ⟨hdata, ?_, ?_, ?_, ?_, ?_⟩
  · exact ⟨("SELECT COUNT(*) FROM \"").data ++ eff.data ++ ("\".\"").data,
      ("\"").data, by rw [hdata]; try simp [List.append_assoc]⟩
  · exact ⟨("SELECT COUNT(*) FROM \"").data,
      ("\".\"").data ++ table.data ++ ("\"").data,
      by rw [hdata]; try simp [List.append_assoc]⟩
  · intro hdb hsf hest
    rw [getTableStats_trace o c schema table eff hdb heff hsf hest]
    rfl
  · intro hconn htab hsf hest
    obtain ⟨c', db', hcl, hdb'⟩ := ensure_ok_client o env a fresh hconn
    have htrace := getTableStats_trace o c' eff table eff (by simp [hdb'])
      heff2 hsf hest
    subst heff
    simp only [App.getTableStats, hconn]
    rw [show (table == "") = false from beq_eq_false_iff_ne.mpr htab]
    simp only [Bool.false_eq_true, if_false]
    rw [hcl]
    cases hdr : (Client.getTableStats o c'
        (if schema == "" then DefaultSchema else schema) table).1 <;>
      simp only [hdr] <;>
        rw [sqlTexts_append, sqlTexts_ensure_trace, htrace] <;> rfl
  · intro hconn hlt hmem hsfT hestT
    obtain ⟨c', db', hcl, hdb'⟩ := ensure_ok_client o env a fresh hconn
    subst hls
    have hlsne : ((if schema != "" then schema else DefaultSchema) == "") = false := by
      by_cases hs : schema = ""
      · rw [hs]
        decide
      · simp [hs]
    have hclientLT : Client.listTables o c'
        (if schema != "" then schema else DefaultSchema) =
        (.ok (o.tablesInSchema (if schema != "" then schema else DefaultSchema)),
          [.sql listTablesSql]) := by
      simp only [Client.listTables, hdb', hlsne, Bool.false_eq_true, if_false, hlt]
    have hop : DbOp.sql (fallbackCountQuery efft t.name) ∈
        (Client.getTableStats o c' t.schema t.name).2 := by
      rw [getTableStats_trace o c' t.schema t.name efft (by simp [hdb'])
        hefft hsfT hestT]
      simp
    simp only [App.listTables, hconn, hcl, hclientLT]
    apply mem_sqlTexts_of_mem
    refine List.mem_append_right _ ?_
    exact statsLoop_op_mem o c' _ t hmem _ hop

/-- Witness for C10 in the sample world: the estimate is absent, so both
`get_table_stats` and `list_tables(include_size)` send the raw-concatenated
count text. -/
theorem getTableStats_injection_spec_witness :
    sqlTexts (App.getTableStats sampleOracle sampleEnv liveApp
        "public" "users" 1).2.2 =
      [statsEstimateSql, fallbackCountQuery "public" "users"]
    ∧ fallbackCountQuery "public" "users" ∈
        sqlTexts (App.listTables sampleOracle sampleEnv liveApp
          (some { schema := "public", includeSize := true }) 1).2.2 := by
  have h := getTableStats_injection_spec sampleOracle sampleEnv liveApp
    liveClient "public" "users" 1
    { schema := "public", name := "users", type := "table", owner := "o" }
    "public" "public" "public" (by decide) (by decide) (by decide)
  exact ⟨h.2.2.2.2.1 (by decide) (by decide) (by decide) (Or.inl (by decide)),
    h.2.2.2.2.2 (by decide) (by decide) (by decide) (by decide) (Or.inl (by decide))⟩

end PgMcp
